import Mathlib

/-!
Verification of the compute-resource-control (crc) domain model of
renku-data-services: resource classes, quotas, resource pools, their
comparison algebra, validation invariants and update operations.

The definitions below are a shallow embedding of
`components/renku_data_services/crc/models.py`:
* numbers: Python `float` cpu values are embedded as `ℚ` (all comparisons
  performed by the code are exact order comparisons), Python `int` fields
  as `ℤ`;
* fallible constructors (`__post_init__` raising `ValidationError`) become
  functions returning `Except ValidationError _`;
* the frozen dataclasses become structures, in-place canonical sorting in
  `__post_init__` becomes sorting before the value is built;
* Python `sorted` (a stable sort by a key tuple) is embedded as a stable
  sort (`List.insertionSort`) by the ordering `key a ≤ key b`; a stable
  sort is uniquely determined by that total preorder, so the two agree.
-/

namespace RenkuCrc

/-- `ValidationError(message)` from `renku_data_services.errors`. -/
structure ValidationError where
  message : String
  deriving DecidableEq, Repr

/-- The NUL character `"\x00"` rejected by the name validators. -/
def NUL : Char := Char.ofNat 0

/-- The membership test `"\x00" in name`: for a one-character needle this is
exactly "some character of `name` is NUL". -/
def containsNUL (name : String) : Bool :=
  name.data.any (fun a => a == NUL)

/-- The four comparison operators installed by `ResourcesCompareMixin`
(`__ge__`, `__gt__`, `__lt__`, `__le__`). -/
inductive CompareOp where
  | ge
  | gt
  | lt
  | le
  deriving DecidableEq, Repr

/-- The scalar comparator (`lambda x, y: x >= y` and friends) on rationals. -/
def CompareOp.applyQ : CompareOp → ℚ → ℚ → Bool
  | .ge, x, y => decide (x ≥ y)
  | .gt, x, y => decide (x > y)
  | .lt, x, y => decide (x < y)
  | .le, x, y => decide (x ≤ y)

/-- The scalar comparator on integers. -/
def CompareOp.applyZ : CompareOp → ℤ → ℤ → Bool
  | .ge, x, y => decide (x ≥ y)
  | .gt, x, y => decide (x > y)
  | .lt, x, y => decide (x < y)
  | .le, x, y => decide (x ≤ y)

/-- The sentinel `99999999999999999999999` used by
`ResourcesCompareMixin.__compare` when a side has no `max_storage`. -/
def STORAGE_SENTINEL : ℤ := 99999999999999999999999

/-- The resource dimensions read by `ResourcesCompareMixin.__compare`
(`ResourcesProtocol`): `cpu`, `memory`, `gpu` and an optional
`max_storage` (`none` when the object, e.g. a `Quota`, lacks the field). -/
structure Resources where
  cpu : ℚ
  memory : ℤ
  gpu : ℤ
  max_storage : Option ℤ
  deriving DecidableEq, Repr

/-- `getattr(self, "max_storage", 99999999999999999999999)`. -/
def Resources.storageValue (r : Resources) : ℤ :=
  r.max_storage.getD STORAGE_SENTINEL

/-- `ResourcesCompareMixin.__compare`: build the list of the three
componentwise results, append the storage comparison, and take `all`. -/
def resourcesCompare (op : CompareOp) (a b : Resources) : Bool :=
  let results : List Bool :=
    [op.applyQ a.cpu b.cpu, op.applyZ a.memory b.memory, op.applyZ a.gpu b.gpu]
  let results2 : List Bool := results ++ [op.applyZ a.storageValue b.storageValue]
  results2.all id

/-- `NodeAffinity` frozen dataclass. -/
structure NodeAffinity where
  key : String
  required_during_scheduling : Bool
  deriving DecidableEq, Repr

/-- `GpuKind` enum. -/
inductive GpuKind where
  | NVIDIA
  | AMD
  deriving DecidableEq, Repr

/-- `ResourceClass` frozen dataclass (fields in source order). -/
structure ResourceClass where
  name : String
  cpu : ℚ
  memory : ℤ
  max_storage : ℤ
  gpu : ℤ
  id : Option ℤ
  default : Bool
  default_storage : ℤ
  matching : Option Bool
  node_affinities : List NodeAffinity
  tolerations : List String
  deriving DecidableEq, Repr

/-- `Quota` frozen dataclass. -/
structure Quota where
  cpu : ℚ
  memory : ℤ
  gpu : ℤ
  gpu_kind : GpuKind
  id : Option String
  deriving DecidableEq, Repr

/-- The resource dimensions of a `ResourceClass` (has `max_storage`). -/
def ResourceClass.resources (c : ResourceClass) : Resources :=
  ⟨c.cpu, c.memory, c.gpu, some c.max_storage⟩

/-- The resource dimensions of a `Quota` (no `max_storage` field). -/
def Quota.resources (q : Quota) : Resources :=
  ⟨q.cpu, q.memory, q.gpu, none⟩

/-- `Quota.is_resource_class_compatible(rc)`, i.e. `rc <= self`. -/
def Quota.is_resource_class_compatible (q : Quota) (rc : ResourceClass) : Bool :=
  resourcesCompare CompareOp.le rc.resources q.resources

/-- `ResourceClass.is_quota_valid(quota)`, i.e. `quota >= self`. -/
def ResourceClass.is_quota_valid (rc : ResourceClass) (q : Quota) : Bool :=
  resourcesCompare CompareOp.ge q.resources rc.resources

/-- A resource-bearing entity on which the mixin operators are installed:
either a `ResourceClass` or a `Quota`. -/
inductive Entity where
  | cls (c : ResourceClass)
  | quo (q : Quota)
  deriving DecidableEq, Repr

def Entity.resources : Entity → Resources
  | .cls c => c.resources
  | .quo q => q.resources

def Entity.cpuVal (a : Entity) : ℚ := a.resources.cpu

def Entity.memoryVal (a : Entity) : ℤ := a.resources.memory

def Entity.gpuVal (a : Entity) : ℤ := a.resources.gpu

/-- The `max_storage` attribute of the entity when it has one
(`none` for a `Quota`). -/
def Entity.max_storageOpt : Entity → Option ℤ
  | .cls c => some c.max_storage
  | .quo _ => none

/-- The mixin comparison `A op B` between two entities. -/
def entityCompare (op : CompareOp) (a b : Entity) : Bool :=
  resourcesCompare op a.resources b.resources

/-- Python `sorted(xs, key=f)` compares key values; this is the ordering
`f a ≤ f b` it sorts by. Python's sort is stable, and a stable sort is
uniquely determined by the total preorder it sorts by, so any stable sort
(here: insertion sort) is a faithful embedding of `sorted`. Python strings
compare lexicographically by code point, embedded as `List Char` keys. -/
def keyRel {α β : Type} [LinearOrder β] (f : α → β) (a b : α) : Prop :=
  f a ≤ f b

instance {α β : Type} [LinearOrder β] (f : α → β) : DecidableRel (keyRel f) :=
  fun a b => inferInstanceAs (Decidable (f a ≤ f b))

instance {α β : Type} [LinearOrder β] (f : α → β) : IsTotal α (keyRel f) :=
  ⟨fun a b => le_total (f a) (f b)⟩

instance {α β : Type} [LinearOrder β] (f : α → β) : IsTrans α (keyRel f) :=
  ⟨fun _ _ _ h1 h2 => le_trans h1 h2⟩

/-- The sort key `lambda x: (x.key, x.required_during_scheduling)` used for
`node_affinities`, as a lexicographic pair. -/
def naKey (a : NodeAffinity) : Lex (List Char × Bool) :=
  toLex (a.key.data, a.required_during_scheduling)

/-- `sorted(self.node_affinities, key=lambda x: (x.key, x.required_during_scheduling))`. -/
def sortNodeAffinities (l : List NodeAffinity) : List NodeAffinity :=
  l.insertionSort (keyRel naKey)

/-- The (code-point list) key of the plain `sorted(self.tolerations)`. -/
def tolKey (s : String) : List Char := s.data

/-- `sorted(self.tolerations)`. -/
def sortTolerations (l : List String) : List String :=
  l.insertionSort (keyRel tolKey)

/-- The sort key `lambda x: (x.default, x.cpu, x.memory, x.default_storage, x.name)`
used for a pool's `classes`, as a nested lexicographic tuple. -/
def classKey (c : ResourceClass) : Lex (Bool × Lex (ℚ × Lex (ℤ × Lex (ℤ × List Char)))) :=
  toLex (c.default, toLex (c.cpu, toLex (c.memory, toLex (c.default_storage, c.name.data))))

/-- `sorted(self.classes, key=...)` performed by `ResourcePool.__post_init__`. -/
def sortClasses (l : List ResourceClass) : List ResourceClass :=
  l.insertionSort (keyRel classKey)

/-- `ResourceClass.__post_init__`: the dataclass construction together with
its validation; returns the constructed class or the raised error. -/
def mkResourceClass (name : String) (cpu : ℚ) (memory : ℤ) (max_storage : ℤ) (gpu : ℤ)
    (id : Option ℤ) (defaultFlag : Bool) (default_storage : ℤ) (matching : Option Bool)
    (node_affinities : List NodeAffinity) (tolerations : List String) :
    Except ValidationError ResourceClass :=
  if containsNUL name then
    Except.error ⟨"NUL is not allowed in name field."⟩
  else if name.length > 40 then
    Except.error ⟨"name cannot be longer than 40 characters."⟩
  else if default_storage > max_storage then
    Except.error ⟨"The default storage cannot be larger than the max allowable storage."⟩
  else
    Except.ok
      { name := name, cpu := cpu, memory := memory, max_storage := max_storage, gpu := gpu,
        id := id, default := defaultFlag, default_storage := default_storage,
        matching := matching,
        node_affinities := sortNodeAffinities node_affinities,
        tolerations := sortTolerations tolerations }

/-- `ResourceClass.from_dict(asdict(c))`: rebuilding a class from its own
field values, re-running `__post_init__`. -/
def ResourceClass.reconstruct (c : ResourceClass) : Except ValidationError ResourceClass :=
  mkResourceClass c.name c.cpu c.memory c.max_storage c.gpu c.id c.default
    c.default_storage c.matching c.node_affinities c.tolerations

/-- A `ResourceClass` value that the Python code can actually hold: the
constructor, run on the value's own fields, succeeds and returns it back. -/
def ResourceClass.Valid (c : ResourceClass) : Prop :=
  c.reconstruct = Except.ok c

/-- `Quota.generate_id`: `str(uuid4())` is modelled by the abstract
parameter `fresh` (a freshly drawn uuid string). -/
def Quota.generate_id (q : Quota) (fresh : String) : Quota :=
  match q.id with
  | some _ => q
  | none => { q with id := some fresh }

/-- The list comprehension in `ResourcePool.from_dict` rebuilding each class
with `ResourceClass.from_dict`; the first raised error propagates. -/
def exceptMapList {α β : Type} (f : α → Except ValidationError β) :
    List α → Except ValidationError (List β)
  | [] => Except.ok []
  | a :: l => do
    let b ← f a
    let bs ← exceptMapList f l
    Except.ok (b :: bs)

/-- `ResourcePool` frozen dataclass. -/
structure ResourcePool where
  name : String
  classes : List ResourceClass
  quota : Option Quota
  id : Option ℤ
  default : Bool
  public : Bool
  deriving DecidableEq, Repr

/-- The loop in `ResourcePool.__post_init__` raising on the first class that
is not compatible with the (present) quota. -/
def quotaIncompatibleClass (quota : Option Quota) (classes : List ResourceClass) :
    Option ResourceClass :=
  match quota with
  | none => none
  | some q => classes.find? (fun c => ! q.is_resource_class_compatible c)

/-- `ResourcePool.__post_init__`: dataclass construction plus validation,
returning the constructed pool (with canonically sorted classes) or the
raised error. -/
def mkResourcePool (name : String) (classes : List ResourceClass) (quota : Option Quota)
    (id : Option ℤ) (defaultFlag : Bool) (publicFlag : Bool) :
    Except ValidationError ResourcePool :=
  if containsNUL name then
    Except.error ⟨"NUL is not allowed in name field."⟩
  else if name.length > 40 then
    Except.error ⟨"name cannot be longer than 40 characters."⟩
  else if defaultFlag && !publicFlag then
    Except.error ⟨"The default resource pool has to be public."⟩
  else if defaultFlag && quota.isSome then
    Except.error ⟨"A default resource pool cannot have a quota."⟩
  else
    match quotaIncompatibleClass quota classes with
    | some c =>
      Except.error ⟨"The resource class with name " ++ c.name ++ " is not compatible with the quota."⟩
    | none =>
      if (classes.filter (fun c => c.default)).length ≠ 1 then
        Except.error ⟨"One default class is required in each resource pool."⟩
      else
        Except.ok
          { name := name, classes := sortClasses classes, quota := quota, id := id,
            default := defaultFlag, public := publicFlag }

/-- `ResourcePool.from_dict` on merged `asdict` data: every class is rebuilt
through `ResourceClass.from_dict` (re-running its `__post_init__`), the quota
is taken as is (`Quota.from_dict` performs no validation), then the pool
constructor runs. -/
def poolFromDict (name : String) (classes : List ResourceClass) (quota : Option Quota)
    (id : Option ℤ) (defaultFlag : Bool) (publicFlag : Bool) :
    Except ValidationError ResourcePool := do
  let classes2 ← exceptMapList ResourceClass.reconstruct classes
  mkResourcePool name classes2 quota id defaultFlag publicFlag

/-- `ResourcePool.from_dict(asdict(p))`: rebuilding a pool from its own
field values. -/
def ResourcePool.reconstruct (p : ResourcePool) : Except ValidationError ResourcePool :=
  poolFromDict p.name p.classes p.quota p.id p.default p.public

/-- A `ResourcePool` value the Python code can hold: reconstruction from its
own fields succeeds and is the identity. -/
def ResourcePool.Valid (p : ResourcePool) : Prop :=
  p.reconstruct = Except.ok p

/-- `ResourcePool.set_quota(val)`: fail on the first class incompatible with
the new quota, otherwise rebuild via `from_dict` with the new quota. -/
def ResourcePool.set_quota (p : ResourcePool) (val : Quota) :
    Except ValidationError ResourcePool :=
  match p.classes.find? (fun c => ! val.is_resource_class_compatible c) with
  | some c =>
    Except.error ⟨"The resource class with name " ++ c.name ++ " is not compatiable with the quota."⟩
  | none => poolFromDict p.name p.classes (some val) p.id p.default p.public

/-- The keyword arguments of `ResourcePool.update`: `none` means the field
is absent from the patch. For `quota` and `id`, `some none` means the patch
explicitly sets the field to `None`. -/
structure PoolPatch where
  name : Option String := none
  classes : Option (List ResourceClass) := none
  quota : Option (Option Quota) := none
  id : Option (Option ℤ) := none
  default : Option Bool := none
  public : Option Bool := none
  deriving DecidableEq, Repr

/-- `ResourcePool.update(**kwargs)`: refuse un-defaulting a default pool,
otherwise merge the patch over `asdict(self)` and rebuild via `from_dict`. -/
def ResourcePool.update (p : ResourcePool) (patch : PoolPatch) :
    Except ValidationError ResourcePool :=
  if p.default && patch.default == some false then
    Except.error ⟨"A default resource pool cannot be made non-default."⟩
  else
    poolFromDict (patch.name.getD p.name) (patch.classes.getD p.classes)
      (patch.quota.getD p.quota) (patch.id.getD p.id) (patch.default.getD p.default)
      (patch.public.getD p.public)

/-- Whether an `Except` result is an error (a raised `ValidationError`). -/
def excIsErr {α : Type} : Except ValidationError α → Bool
  | Except.error _ => true
  | Except.ok _ => false

/-- A patch whose only entry is `default=True`. -/
def PoolPatch.onlyDefaultTrue (patch : PoolPatch) : Prop :=
  patch.name = none ∧ patch.classes = none ∧ patch.quota = none ∧
  patch.id = none ∧ patch.default = some true ∧ patch.public = none

instance {α : Type} [DecidableEq α] : DecidableEq (Except ValidationError α) := by
  intro a b
  cases a <;> cases b
  case error.error e1 e2 =>
    exact if h : e1 = e2 then Decidable.isTrue (by rw [h])
      else Decidable.isFalse (fun hc => h (Except.error.inj hc))
  case error.ok e x => exact Decidable.isFalse (fun hc => Except.noConfusion hc)
  case ok.error x e => exact Decidable.isFalse (fun hc => Except.noConfusion hc)
  case ok.ok x y =>
    exact if h : x = y then Decidable.isTrue (by rw [h])
      else Decidable.isFalse (fun hc => h (Except.ok.inj hc))

instance (c : ResourceClass) : Decidable c.Valid := by
  unfold ResourceClass.Valid
  infer_instance

instance (p : ResourcePool) : Decidable p.Valid := by
  unfold ResourcePool.Valid
  infer_instance

instance (patch : PoolPatch) : Decidable patch.onlyDefaultTrue := by
  unfold PoolPatch.onlyDefaultTrue
  infer_instance

/-- A small default resource class (compatible with `q0`). -/
def C0 : ResourceClass :=
  { name := "small", cpu := 1, memory := 1, max_storage := 2, gpu := 0, id := none,
    default := true, default_storage := 1, matching := none, node_affinities := [],
    tolerations := [] }

/-- A valid public non-default pool holding `C0`. -/
def P0 : ResourcePool :=
  { name := "pool", classes := [C0], quota := none, id := none, default := false,
    public := true }

/-- A valid default pool (public, no quota) holding `C0`. -/
def Pdef : ResourcePool :=
  { name := "pool", classes := [C0], quota := none, id := none, default := true,
    public := true }

/-- A valid non-public pool holding `C0`. -/
def Ppriv : ResourcePool :=
  { name := "pool", classes := [C0], quota := none, id := none, default := false,
    public := false }

/-- A generous quota, compatible with `C0`. -/
def q0 : Quota := { cpu := 10, memory := 10, gpu := 10, gpu_kind := GpuKind.NVIDIA, id := none }

/-- A valid pool that carries the quota `q0`. -/
def Pq : ResourcePool :=
  { name := "pool", classes := [C0], quota := some q0, id := none, default := false,
    public := true }

/-- Quota with cpu 1, memory 1: `qA.cpu ≥ qB.cpu`, `qA.memory < qB.memory`. -/
def qA : Quota := { cpu := 1, memory := 1, gpu := 0, gpu_kind := GpuKind.NVIDIA, id := none }

/-- Quota with cpu 1, memory 2: dominates `qA` componentwise. -/
def qB : Quota := { cpu := 1, memory := 2, gpu := 0, gpu_kind := GpuKind.NVIDIA, id := none }

/-- Quota with cpu 2, memory 1: trades off strictly against `qB`. -/
def qC : Quota := { cpu := 2, memory := 1, gpu := 0, gpu_kind := GpuKind.NVIDIA, id := none }

/-- A quota without an id. -/
def qNoId : Quota := { cpu := 1, memory := 1, gpu := 0, gpu_kind := GpuKind.NVIDIA, id := none }

/-- Sample node affinity. -/
def na1 : NodeAffinity := { key := "gpu-node", required_during_scheduling := false }

/-- Sample node affinity with a different key. -/
def na2 : NodeAffinity := { key := "ssd-node", required_during_scheduling := true }

/-- A patch that only renames. -/
def patch0 : PoolPatch :=
  { name := some "renamed", classes := none, quota := none, id := none, default := none,
    public := none }

/-- The expected result of `P0.update patch0`. -/
def P1 : ResourcePool :=
  { name := "renamed", classes := [C0], quota := none, id := none, default := false,
    public := true }

/-- The patch `update(default=False)`. -/
def patchUndef : PoolPatch :=
  { name := none, classes := none, quota := none, id := none, default := some false,
    public := none }

/-- The patch `update(default=True)`. -/
def patchDefTrue : PoolPatch :=
  { name := none, classes := none, quota := none, id := none, default := some true,
    public := none }

end RenkuCrc

namespace RenkuCrc

theorem excIsErr_false_iff {α : Type} (x : Except ValidationError α) :
    excIsErr x = false ↔ ∃ a, x = Except.ok a := by
  cases x <;> simp [excIsErr]

theorem excIsErr_true_iff {α : Type} (x : Except ValidationError α) :
    excIsErr x = true ↔ ∃ e, x = Except.error e := by
  cases x <;> simp [excIsErr]

theorem sort_keyRel_perm {α β : Type} [LinearOrder β] (f : α → β) (l : List α) :
    (l.insertionSort (keyRel f)).Perm l :=
  List.perm_insertionSort _ l

theorem sort_keyRel_idem {α β : Type} [LinearOrder β] (f : α → β) (l : List α) :
    (l.insertionSort (keyRel f)).insertionSort (keyRel f) = l.insertionSort (keyRel f) :=
  (List.sorted_insertionSort _ l).insertionSort_eq

theorem sortClasses_perm (l : List ResourceClass) : (sortClasses l).Perm l :=
  sort_keyRel_perm classKey l

theorem sortClasses_idem (l : List ResourceClass) : sortClasses (sortClasses l) = sortClasses l :=
  sort_keyRel_idem classKey l

theorem sort_keyRel_eq_of_perm {α β : Type} [LinearOrder β] {f : α → β}
    (hf : Function.Injective f) {l1 l2 : List α} (h : l1.Perm l2) :
    l1.insertionSort (keyRel f) = l2.insertionSort (keyRel f) := by
  haveI : IsAntisymm α (keyRel f) := ⟨fun a b h1 h2 => hf (le_antisymm h1 h2)⟩
  exact List.eq_of_perm_of_sorted
    (((List.perm_insertionSort _ l1).trans h).trans (List.perm_insertionSort _ l2).symm)
    (List.sorted_insertionSort _ l1) (List.sorted_insertionSort _ l2)

theorem exceptMapList_cons {α β : Type} (f : α → Except ValidationError β) (a : α) (l : List α) :
    exceptMapList f (a :: l) =
      match f a with
      | Except.error e => Except.error e
      | Except.ok b =>
        match exceptMapList f l with
        | Except.error e => Except.error e
        | Except.ok bs => Except.ok (b :: bs) := by
  show (f a >>= fun b => exceptMapList f l >>= fun bs => Except.ok (b :: bs)) = _
  cases f a <;> [rfl; cases exceptMapList f l <;> rfl]

theorem exceptMapList_ok_of_forall {α : Type} (f : α → Except ValidationError α) :
    ∀ l : List α, (∀ a ∈ l, f a = Except.ok a) → exceptMapList f l = Except.ok l
  | [], _ => rfl
  | a :: l, h => by
    have ha : f a = Except.ok a := h a (by simp)
    have hl := exceptMapList_ok_of_forall f l (fun x hx => h x (by simp [hx]))
    rw [exceptMapList_cons, ha, hl]

theorem exceptMapList_ok_mem {α β : Type} (f : α → Except ValidationError β) :
    ∀ (l : List α) (l2 : List β), exceptMapList f l = Except.ok l2 →
      ∀ b ∈ l2, ∃ a ∈ l, f a = Except.ok b
  | [], l2, h, b, hb => by
    simp only [exceptMapList, Except.ok.injEq] at h
    subst h
    simp at hb
  | a :: l, l2, h, b, hb => by
    rw [exceptMapList_cons] at h
    cases ha : f a with
    | error e => rw [ha] at h; exact absurd h (by simp)
    | ok b0 =>
      rw [ha] at h
      cases hl : exceptMapList f l with
      | error e => rw [hl] at h; exact absurd h (by simp)
      | ok bs =>
        rw [hl] at h
        simp only [Except.ok.injEq] at h
        subst h
        rcases List.mem_cons.mp hb with hb0 | hbs
        · exact ⟨a, by simp, by rw [ha, hb0]⟩
        · obtain ⟨x, hx, hfx⟩ := exceptMapList_ok_mem f l bs hl b hbs
          exact ⟨x, by simp [hx], hfx⟩

theorem poolFromDict_eq (name : String) (classes : List ResourceClass) (quota : Option Quota)
    (id : Option ℤ) (defaultFlag publicFlag : Bool) :
    poolFromDict name classes quota id defaultFlag publicFlag =
      match exceptMapList ResourceClass.reconstruct classes with
      | Except.error e => Except.error e
      | Except.ok cs2 => mkResourcePool name cs2 quota id defaultFlag publicFlag := by
  show (exceptMapList ResourceClass.reconstruct classes >>= fun cs2 =>
    mkResourcePool name cs2 quota id defaultFlag publicFlag) = _
  cases exceptMapList ResourceClass.reconstruct classes <;> rfl

theorem entity_resources_storage (a : Entity) :
    a.resources.max_storage = a.max_storageOpt := by
  cases a <;> rfl

theorem mkResourceClass_ok_iff {name : String} {cpu : ℚ} {memory max_storage gpu : ℤ}
    {id : Option ℤ} {defaultFlag : Bool} {default_storage : ℤ} {matching : Option Bool}
    {node_affinities : List NodeAffinity} {tolerations : List String} {c : ResourceClass} :
    mkResourceClass name cpu memory max_storage gpu id defaultFlag default_storage matching
        node_affinities tolerations = Except.ok c ↔
      (containsNUL name = false ∧ name.length ≤ 40 ∧ default_storage ≤ max_storage ∧
       c = { name := name, cpu := cpu, memory := memory, max_storage := max_storage, gpu := gpu,
             id := id, default := defaultFlag, default_storage := default_storage,
             matching := matching, node_affinities := sortNodeAffinities node_affinities,
             tolerations := sortTolerations tolerations }) := by
  unfold mkResourceClass
  split_ifs with h1 h2 h3
  · simp_all
  · simp_all
  · simp_all
  · simp only [Except.ok.injEq]
    constructor
    · intro h
      exact ⟨by simpa using h1, by omega, by omega, h.symm⟩
    · intro h
      exact h.2.2.2.symm

theorem mkResourceClass_isErr_iff {name : String} {cpu : ℚ} {memory max_storage gpu : ℤ}
    {id : Option ℤ} {defaultFlag : Bool} {default_storage : ℤ} {matching : Option Bool}
    {node_affinities : List NodeAffinity} {tolerations : List String} :
    excIsErr (mkResourceClass name cpu memory max_storage gpu id defaultFlag default_storage
        matching node_affinities tolerations) = true ↔
      (containsNUL name = true ∨ name.length > 40 ∨ default_storage > max_storage) := by
  unfold mkResourceClass
  split_ifs with h1 h2 h3 <;> simp_all [excIsErr]

theorem quotaIncompatibleClass_eq_none_iff {quota : Option Quota} {classes : List ResourceClass} :
    quotaIncompatibleClass quota classes = none ↔
      ∀ q, quota = some q → ∀ c ∈ classes, q.is_resource_class_compatible c = true := by
  cases quota with
  | none => simp [quotaIncompatibleClass]
  | some q => simp [quotaIncompatibleClass, List.find?_eq_none]

theorem mkResourcePool_ok_iff {name : String} {classes : List ResourceClass}
    {quota : Option Quota} {id : Option ℤ} {defaultFlag publicFlag : Bool} {p : ResourcePool} :
    mkResourcePool name classes quota id defaultFlag publicFlag = Except.ok p ↔
      (containsNUL name = false ∧ name.length ≤ 40 ∧
       (defaultFlag && !publicFlag) = false ∧ (defaultFlag && quota.isSome) = false ∧
       quotaIncompatibleClass quota classes = none ∧
       (classes.filter (fun c => c.default)).length = 1 ∧
       p = { name := name, classes := sortClasses classes, quota := quota, id := id,
             default := defaultFlag, public := publicFlag }) := by
  unfold mkResourcePool
  split_ifs with h1 h2 h3 h4 h5
  · simp_all
  · simp_all
  · simp_all
  · simp_all
  · cases hq : quotaIncompatibleClass quota classes with
    | some c => simp_all
    | none => simp_all
  · cases hq : quotaIncompatibleClass quota classes with
    | some c => simp_all
    | none =>
      simp only [Except.ok.injEq]
      constructor
      · intro h
        exact ⟨by simpa using h1, by omega, by simpa using h3, by simpa using h4, trivial,
          by simpa using h5, h.symm⟩
      · intro h
        exact h.2.2.2.2.2.2.symm

theorem quotaIncompatibleClass_isSome_iff {quota : Option Quota} {classes : List ResourceClass} :
    (quotaIncompatibleClass quota classes).isSome = true ↔
      ∃ q, quota = some q ∧ ∃ c ∈ classes, q.is_resource_class_compatible c = false := by
  cases quota with
  | none => simp [quotaIncompatibleClass]
  | some q => simp [quotaIncompatibleClass, List.find?_isSome]

theorem mkResourcePool_isErr_iff {name : String} {classes : List ResourceClass}
    {quota : Option Quota} {id : Option ℤ} {defaultFlag publicFlag : Bool} :
    excIsErr (mkResourcePool name classes quota id defaultFlag publicFlag) = true ↔
      (containsNUL name = true ∨ name.length > 40 ∨
       (defaultFlag = true ∧ publicFlag = false) ∨
       (defaultFlag = true ∧ quota.isSome = true) ∨
       (∃ q, quota = some q ∧ ∃ c ∈ classes, q.is_resource_class_compatible c = false) ∨
       (classes.filter (fun c => c.default)).length ≠ 1) := by
  unfold mkResourcePool
  split_ifs with h1 h2 h3 h4 h5
  · simp only [excIsErr, true_iff]
    exact Or.inl h1
  · simp only [excIsErr, true_iff]
    exact Or.inr (Or.inl h2)
  · simp only [excIsErr, true_iff]
    exact Or.inr (Or.inr (Or.inl (by simpa using h3)))
  · simp only [excIsErr, true_iff]
    exact Or.inr (Or.inr (Or.inr (Or.inl (by simpa using h4))))
  · cases hq : quotaIncompatibleClass quota classes with
    | some c =>
      simp only [excIsErr, true_iff]
      exact Or.inr (Or.inr (Or.inr (Or.inr (Or.inl
        (quotaIncompatibleClass_isSome_iff.mp (by rw [hq]; rfl))))))
    | none =>
      simp only [excIsErr, true_iff]
      exact Or.inr (Or.inr (Or.inr (Or.inr (Or.inr h5))))
  · cases hq : quotaIncompatibleClass quota classes with
    | some c =>
      simp only [excIsErr, true_iff]
      exact Or.inr (Or.inr (Or.inr (Or.inr (Or.inl
        (quotaIncompatibleClass_isSome_iff.mp (by rw [hq]; rfl))))))
    | none =>
      simp only [excIsErr, Bool.false_eq_true, false_iff]
      rintro (hc | hc | ⟨hd, hp⟩ | ⟨hd, hqs⟩ | hex | hc)
      · exact h1 hc
      · exact h2 hc
      · exact h3 (by simp [hd, hp])
      · exact h4 (by simp [hd, hqs])
      · have hsome := quotaIncompatibleClass_isSome_iff.mpr hex
        rw [hq] at hsome
        simp at hsome
      · exact h5 hc

theorem poolFromDict_ok_classes {name : String} {classes : List ResourceClass}
    {quota : Option Quota} {id : Option ℤ} {defaultFlag publicFlag : Bool}
    {cs2 : List ResourceClass}
    (h : exceptMapList ResourceClass.reconstruct classes = Except.ok cs2) :
    poolFromDict name classes quota id defaultFlag publicFlag =
      mkResourcePool name cs2 quota id defaultFlag publicFlag := by
  unfold poolFromDict
  rw [h]
  rfl

theorem poolFromDict_err_classes {name : String} {classes : List ResourceClass}
    {quota : Option Quota} {id : Option ℤ} {defaultFlag publicFlag : Bool}
    {e : ValidationError}
    (h : exceptMapList ResourceClass.reconstruct classes = Except.error e) :
    poolFromDict name classes quota id defaultFlag publicFlag = Except.error e := by
  unfold poolFromDict
  rw [h]
  rfl

theorem mkResourceClass_valid {name : String} {cpu : ℚ} {memory max_storage gpu : ℤ}
    {id : Option ℤ} {defaultFlag : Bool} {default_storage : ℤ} {matching : Option Bool}
    {node_affinities : List NodeAffinity} {tolerations : List String} {c : ResourceClass}
    (h : mkResourceClass name cpu memory max_storage gpu id defaultFlag default_storage matching
      node_affinities tolerations = Except.ok c) : c.Valid := by
  rw [mkResourceClass_ok_iff] at h
  obtain ⟨h1, h2, h3, rfl⟩ := h
  unfold ResourceClass.Valid ResourceClass.reconstruct
  rw [mkResourceClass_ok_iff]
  exact ⟨h1, h2, h3, by simp [sortNodeAffinities, sortTolerations, sort_keyRel_idem]⟩

theorem mkResourcePool_valid {name : String} {classes : List ResourceClass}
    {quota : Option Quota} {id : Option ℤ} {defaultFlag publicFlag : Bool} {p : ResourcePool}
    (hcls : ∀ c ∈ classes, c.Valid)
    (h : mkResourcePool name classes quota id defaultFlag publicFlag = Except.ok p) :
    p.Valid := by
  rw [mkResourcePool_ok_iff] at h
  obtain ⟨h1, h2, h3, h4, h5, h6, rfl⟩ := h
  unfold ResourcePool.Valid ResourcePool.reconstruct
  have hsortmem : ∀ c ∈ sortClasses classes, c.Valid := fun c hc =>
    hcls c ((sort_keyRel_perm classKey classes).mem_iff.mp hc)
  have heml : exceptMapList ResourceClass.reconstruct (sortClasses classes) =
      Except.ok (sortClasses classes) :=
    exceptMapList_ok_of_forall _ _ hsortmem
  rw [poolFromDict_ok_classes heml, mkResourcePool_ok_iff]
  refine ⟨h1, h2, h3, h4, ?_, ?_, ?_⟩
  · rw [quotaIncompatibleClass_eq_none_iff] at h5 ⊢
    intro q hq c hc
    exact h5 q hq c ((sort_keyRel_perm classKey classes).mem_iff.mp hc)
  · rw [((sortClasses_perm classes).filter (fun c => c.default)).length_eq]
    exact h6
  · simp [sortClasses, sort_keyRel_idem]

theorem valid_pool_facts {p : ResourcePool} (hp : p.Valid) :
    (∀ c ∈ p.classes, c.Valid) ∧
    exceptMapList ResourceClass.reconstruct p.classes = Except.ok p.classes ∧
    mkResourcePool p.name p.classes p.quota p.id p.default p.public = Except.ok p ∧
    sortClasses p.classes = p.classes ∧
    containsNUL p.name = false ∧ p.name.length ≤ 40 ∧
    (p.default && !p.public) = false ∧ (p.default && p.quota.isSome) = false ∧
    quotaIncompatibleClass p.quota p.classes = none ∧
    (p.classes.filter (fun c => c.default)).length = 1 := by
  unfold ResourcePool.Valid ResourcePool.reconstruct at hp
  cases heml : exceptMapList ResourceClass.reconstruct p.classes with
  | error e =>
    rw [poolFromDict_err_classes heml] at hp
    exact absurd hp (by simp)
  | ok cs2 =>
    rw [poolFromDict_ok_classes heml] at hp
    have hmk := hp
    rw [mkResourcePool_ok_iff] at hmk
    obtain ⟨h1, h2, h3, h4, h5, h6, hpeq⟩ := hmk
    have hclseq : p.classes = sortClasses cs2 := by rw [hpeq]
    have hcs2valid : ∀ c ∈ cs2, c.Valid := by
      intro c hc
      obtain ⟨a, _, hfa⟩ := exceptMapList_ok_mem _ _ _ heml c hc
      exact mkResourceClass_valid hfa
    have hpc_valid : ∀ c ∈ p.classes, c.Valid := by
      intro c hc
      rw [hclseq] at hc
      exact hcs2valid c ((sort_keyRel_perm classKey cs2).mem_iff.mp hc)
    have heml2 : exceptMapList ResourceClass.reconstruct p.classes = Except.ok p.classes :=
      exceptMapList_ok_of_forall _ _ hpc_valid
    have hcs2 : cs2 = p.classes := by
      have h0 := heml2
      rw [heml] at h0
      exact Except.ok.inj h0
    subst hcs2
    exact ⟨hpc_valid, rfl, hp, hclseq.symm, h1, h2, h3, h4, h5, h6⟩

/-- **C1.** For entities A and B (each a ResourceClass or a Quota) and each
operator among `>=`, `>`, `<`, `<=`, the mixin comparison `A op B` holds iff
the scalar comparison holds independently on all four of cpu, memory, gpu
and max_storage, a missing `max_storage` field being replaced by the
sentinel `99999999999999999999999`: a componentwise logical AND. -/
theorem compare_componentwise_and (a b : Entity) (op : CompareOp) :
    entityCompare op a b = true ↔
      (op.applyQ a.cpuVal b.cpuVal = true ∧
       op.applyZ a.memoryVal b.memoryVal = true ∧
       op.applyZ a.gpuVal b.gpuVal = true ∧
       op.applyZ (a.max_storageOpt.getD STORAGE_SENTINEL)
         (b.max_storageOpt.getD STORAGE_SENTINEL) = true) := by
  have ha := entity_resources_storage a
  have hb := entity_resources_storage b
  simp [entityCompare, resourcesCompare, Entity.cpuVal, Entity.memoryVal,
    Entity.gpuVal, Resources.storageValue, ← ha, ← hb, and_assoc]

end RenkuCrc

namespace RenkuCrc

theorem resourcesCompare_eq (op : CompareOp) (a b : Resources) :
    resourcesCompare op a b =
      (op.applyQ a.cpu b.cpu && (op.applyZ a.memory b.memory &&
       (op.applyZ a.gpu b.gpu && op.applyZ a.storageValue b.storageValue))) := by
  simp [resourcesCompare]

/-- **C10.** For every pair of Quotas, the strict comparisons `q1 > q2` and
`q1 < q2` are always false: neither side has a `max_storage` field, so both
substitute the same sentinel for the storage dimension, and the strict
comparison on that dimension never holds. -/
theorem quota_strict_compare_always_false (q1 q2 : Quota) :
    entityCompare CompareOp.gt (Entity.quo q1) (Entity.quo q2) = false ∧
    entityCompare CompareOp.lt (Entity.quo q1) (Entity.quo q2) = false := by
  constructor <;>
  · unfold entityCompare
    rw [resourcesCompare_eq]
    have hst : (Entity.quo q1).resources.storageValue =
        (Entity.quo q2).resources.storageValue := rfl
    simp [hst, CompareOp.applyZ]

/-- **C7 (counterexample).** The claim "A.cpu ≥ B.cpu, A.memory < B.memory,
A.gpu ≥ B.gpu imply that both `A >= B` and `B >= A` are false" fails at
A = qA = (1, 1, 0) and B = qB = (1, 2, 0): the hypotheses hold, yet
`B >= A` is true (B dominates A componentwise). -/
theorem incomparability_claim_cex :
    (Entity.quo qA).cpuVal ≥ (Entity.quo qB).cpuVal ∧
    (Entity.quo qA).memoryVal < (Entity.quo qB).memoryVal ∧
    (Entity.quo qA).gpuVal ≥ (Entity.quo qB).gpuVal ∧
    entityCompare CompareOp.ge (Entity.quo qB) (Entity.quo qA) = true :=
  ⟨by decide, by decide, by decide, by decide⟩

/-- **C7 (amended).** For any two resource-bearing entities with
A.cpu > B.cpu (strictly), A.memory < B.memory and A.gpu ≥ B.gpu, both
`A >= B` and `B >= A` are false: A and B are incomparable under the
componentwise order. -/
theorem incomparable_of_strict_tradeoff (a b : Entity)
    (h1 : a.cpuVal > b.cpuVal) (h2 : a.memoryVal < b.memoryVal) (_h3 : a.gpuVal ≥ b.gpuVal) :
    entityCompare CompareOp.ge a b = false ∧ entityCompare CompareOp.ge b a = false := by
  constructor
  · unfold entityCompare
    rw [resourcesCompare_eq]
    have hm : CompareOp.applyZ CompareOp.ge a.resources.memory b.resources.memory = false := by
      simp only [CompareOp.applyZ, ge_iff_le, decide_eq_false_iff_not, not_le]
      exact h2
    rw [hm]
    simp
  · unfold entityCompare
    rw [resourcesCompare_eq]
    have hc : CompareOp.applyQ CompareOp.ge b.resources.cpu a.resources.cpu = false := by
      simp only [CompareOp.applyQ, ge_iff_le, decide_eq_false_iff_not, not_le]
      exact h1
    rw [hc]
    simp

theorem incomparable_of_strict_tradeoff_witness :
    ((Entity.quo qC).cpuVal > (Entity.quo qB).cpuVal ∧
     (Entity.quo qC).memoryVal < (Entity.quo qB).memoryVal ∧
     (Entity.quo qC).gpuVal ≥ (Entity.quo qB).gpuVal) ∧
    (entityCompare CompareOp.ge (Entity.quo qC) (Entity.quo qB) = false ∧
     entityCompare CompareOp.ge (Entity.quo qB) (Entity.quo qC) = false) :=
  ⟨⟨by decide, by decide, by decide⟩,
    incomparable_of_strict_tradeoff (Entity.quo qC) (Entity.quo qB)
      (by decide) (by decide) (by decide)⟩

/-- **C6 (counterexample).** The claim that class construction raises iff
the name has a NUL, the name length is outside 1 to 40, or default_storage
exceeds max_storage, fails at the empty name: the empty name's length is
outside the range 1 to 40, yet construction succeeds (`__post_init__`
only checks `len(name) > 40`, not a minimum length). -/
theorem class_empty_name_cex :
    ¬ (excIsErr (mkResourceClass "" 1 1 1 0 none false 1 none [] []) = true ↔
        (containsNUL "" = true ∨ ("".length < 1 ∨ "".length > 40) ∨ (1 : ℤ) > 1)) := by
  decide

/-- **C6 (amended).** Constructing a ResourceClass raises ValidationError iff
the name contains the NUL character, or the name is longer than 40
characters, or default_storage > max_storage (no minimum length is
enforced); otherwise construction succeeds. -/
theorem class_construction_error_iff (name : String) (cpu : ℚ) (memory max_storage gpu : ℤ)
    (id : Option ℤ) (defaultFlag : Bool) (default_storage : ℤ) (matching : Option Bool)
    (node_affinities : List NodeAffinity) (tolerations : List String) :
    excIsErr (mkResourceClass name cpu memory max_storage gpu id defaultFlag default_storage
        matching node_affinities tolerations) = true ↔
      (containsNUL name = true ∨ name.length > 40 ∨ default_storage > max_storage) :=
  mkResourceClass_isErr_iff

end RenkuCrc

namespace RenkuCrc

theorem string_data_injective : Function.Injective String.data := by
  intro a b h
  cases a
  cases b
  exact congrArg String.mk (by simpa using h)

theorem naKey_injective : Function.Injective naKey := by
  intro a b h
  simp only [naKey, toLex_inj, Prod.mk.injEq] at h
  obtain ⟨h1, h2⟩ := h
  cases a with
  | mk ka ra =>
    cases b with
    | mk kb rb =>
      simp only at h1 h2
      rw [string_data_injective h1, h2]

theorem tolKey_injective : Function.Injective tolKey :=
  fun _ _ h => string_data_injective h

/-- **C9.** Two ResourceClass constructions that agree on every scalar field
and receive the same node_affinities and tolerations as permutations of one
another produce identical results: construction canonicalizes
`node_affinities` (sorted on the pair key, required_during_scheduling)
and `tolerations` (sorted lexicographically), so the constructed instances
are equal (and therefore hash identically). -/
theorem class_construction_perm_invariant (name : String) (cpu : ℚ)
    (memory max_storage gpu : ℤ) (id : Option ℤ) (defaultFlag : Bool) (default_storage : ℤ)
    (matching : Option Bool) (l1 l2 : List NodeAffinity) (t1 t2 : List String)
    (hl : l1.Perm l2) (ht : t1.Perm t2) :
    mkResourceClass name cpu memory max_storage gpu id defaultFlag default_storage matching
        l1 t1 =
      mkResourceClass name cpu memory max_storage gpu id defaultFlag default_storage matching
        l2 t2 := by
  have hna : sortNodeAffinities l1 = sortNodeAffinities l2 :=
    sort_keyRel_eq_of_perm naKey_injective hl
  have htol : sortTolerations t1 = sortTolerations t2 :=
    sort_keyRel_eq_of_perm tolKey_injective ht
  unfold mkResourceClass
  rw [hna, htol]

theorem class_construction_perm_invariant_witness :
    ([na2, na1].Perm [na1, na2] ∧ (["t2", "t1"] : List String).Perm ["t1", "t2"]) ∧
    mkResourceClass "c" 1 1 2 0 none true 1 none [na2, na1] ["t2", "t1"] =
      mkResourceClass "c" 1 1 2 0 none true 1 none [na1, na2] ["t1", "t2"] :=
  ⟨⟨by decide, by decide⟩,
    class_construction_perm_invariant "c" 1 1 2 0 none true 1 none [na2, na1] [na1, na2]
      ["t2", "t1"] ["t1", "t2"] (by decide) (by decide)⟩

/-- **C8.** `generate_id` (with the fresh uuid string passed explicitly):
if the id is set it returns the quota unchanged; if not, it returns a new
quota identical in all fields except that the id is the fresh non-empty
string, without mutating the receiver (the original value keeps `id = none`
by immutability of the embedding); a second `generate_id` leaves the id of
the first result unchanged. -/
theorem generate_id_spec (q : Quota) (f1 f2 : String) (hf : f1 ≠ "") :
    (∀ i, q.id = some i → q.generate_id f1 = q) ∧
    (q.id = none →
      ((q.generate_id f1).id = some f1 ∧ (q.generate_id f1).id ≠ some "" ∧
       (q.generate_id f1).cpu = q.cpu ∧ (q.generate_id f1).memory = q.memory ∧
       (q.generate_id f1).gpu = q.gpu ∧ (q.generate_id f1).gpu_kind = q.gpu_kind)) ∧
    ((q.generate_id f1).generate_id f2).id = (q.generate_id f1).id := by
  cases hq : q.id with
  | some i =>
    have hgen : q.generate_id f1 = q := by
      unfold Quota.generate_id
      rw [hq]
    refine ⟨fun _ _ => hgen, ?_, ?_⟩
    · intro hn
      exact absurd hn (by simp)
    · rw [hgen]
      unfold Quota.generate_id
      rw [hq]
      exact hq
  | none =>
    have hgen : q.generate_id f1 = { q with id := some f1 } := by
      unfold Quota.generate_id
      rw [hq]
    refine ⟨?_, ?_, ?_⟩
    · intro i hi
      exact absurd hi (by simp)
    · intro _
      rw [hgen]
      exact ⟨rfl, by simpa using hf, rfl, rfl, rfl, rfl⟩
    · rw [hgen]
      unfold Quota.generate_id
      rfl

theorem generate_id_spec_witness :
    (("a3b8" : String) ≠ "") ∧
    ((∀ i, qNoId.id = some i → qNoId.generate_id "a3b8" = qNoId) ∧
     (qNoId.id = none →
       ((qNoId.generate_id "a3b8").id = some "a3b8" ∧
        (qNoId.generate_id "a3b8").id ≠ some "" ∧
        (qNoId.generate_id "a3b8").cpu = qNoId.cpu ∧
        (qNoId.generate_id "a3b8").memory = qNoId.memory ∧
        (qNoId.generate_id "a3b8").gpu = qNoId.gpu ∧
        (qNoId.generate_id "a3b8").gpu_kind = qNoId.gpu_kind)) ∧
     ((qNoId.generate_id "a3b8").generate_id "c9d0").id = (qNoId.generate_id "a3b8").id) :=
  ⟨by decide, generate_id_spec qNoId "a3b8" "c9d0" (by decide)⟩

end RenkuCrc

namespace RenkuCrc

/-- **C2.** Constructing a ResourcePool raises ValidationError iff the name
contains NUL or is longer than 40 characters, or default is true while
public is false, or default is true while a quota is present, or a quota is
present and some class is incompatible with it, or the number of default
classes differs from exactly one; otherwise construction succeeds and
yields a valid pool. The same characterization holds for the full
`from_dict` reconstruction run by `update` and `set_quota` (whose class
inputs are themselves constructor outputs, hence valid). -/
theorem pool_construction_error_iff (name : String) (classes : List ResourceClass)
    (quota : Option Quota) (id : Option ℤ) (defaultFlag publicFlag : Bool) :
    (excIsErr (mkResourcePool name classes quota id defaultFlag publicFlag) = true ↔
      (containsNUL name = true ∨ name.length > 40 ∨
       (defaultFlag = true ∧ publicFlag = false) ∨
       (defaultFlag = true ∧ quota.isSome = true) ∨
       (∃ q, quota = some q ∧ ∃ c ∈ classes, q.is_resource_class_compatible c = false) ∨
       (classes.filter (fun c => c.default)).length ≠ 1)) ∧
    ((∀ c ∈ classes, c.Valid) →
      ∀ p, mkResourcePool name classes quota id defaultFlag publicFlag = Except.ok p →
        p.Valid) ∧
    ((∀ c ∈ classes, c.Valid) →
      (excIsErr (poolFromDict name classes quota id defaultFlag publicFlag) = true ↔
        excIsErr (mkResourcePool name classes quota id defaultFlag publicFlag) = true)) := by
  refine ⟨mkResourcePool_isErr_iff, fun hcls p h => mkResourcePool_valid hcls h, fun hcls => ?_⟩
  rw [poolFromDict_ok_classes (exceptMapList_ok_of_forall _ _ hcls)]

theorem pool_construction_error_iff_witness :
    (∀ c ∈ [C0], ResourceClass.Valid c) ∧ P0.Valid :=
  ⟨by decide,
    (pool_construction_error_iff "pool" [C0] none none false true).2.1 (by decide) P0
      (by decide)⟩

/-- **C3 (counterexample).** The claim "set_quota raises iff some class is
incompatible with the new quota" fails on the valid default pool `Pdef`:
every class of `Pdef` is compatible with `q0`, yet `Pdef.set_quota q0`
raises, because the reconstruction re-runs `__post_init__`, which rejects a
default pool carrying a quota. -/
theorem set_quota_iff_cex :
    Pdef.Valid ∧ (∀ c ∈ Pdef.classes, q0.is_resource_class_compatible c = true) ∧
    excIsErr (Pdef.set_quota q0) = true :=
  ⟨by decide, by decide, by decide⟩

/-- **C3 (amended).** For a valid pool P, `P.set_quota(q)` raises
ValidationError iff some class of P is incompatible with q **or P is a
default pool** (the rebuilt pool would be a default pool with a quota);
on success the new pool's quota is q. P itself is never changed (values
are immutable in the embedding, matching the frozen dataclass). -/
theorem set_quota_spec (p : ResourcePool) (hp : p.Valid) (q : Quota) :
    (excIsErr (p.set_quota q) = true ↔
      ((∃ c ∈ p.classes, q.is_resource_class_compatible c = false) ∨ p.default = true)) ∧
    (∀ p2, p.set_quota q = Except.ok p2 → p2.quota = some q) := by
  obtain ⟨hval, heml, hmk, hsort, h1, h2, h3, h4, h5, h6⟩ := valid_pool_facts hp
  unfold ResourcePool.set_quota
  cases hfind : p.classes.find? (fun c => ! q.is_resource_class_compatible c) with
  | some c =>
    constructor
    · simp only [excIsErr, true_iff]
      left
      exact ⟨c, List.mem_of_find?_eq_some hfind, by simpa using List.find?_some hfind⟩
    · intro p2 h
      exact absurd h (by simp)
  | none =>
    have hno : ∀ c ∈ p.classes, q.is_resource_class_compatible c = true := by
      intro c hc
      have := List.find?_eq_none.mp hfind c hc
      simpa using this
    rw [poolFromDict_ok_classes heml]
    constructor
    · rw [mkResourcePool_isErr_iff]
      constructor
      · rintro (hc | hc | ⟨hd, _⟩ | ⟨hd, _⟩ | ⟨q1, hq1, c, hc, hcomp⟩ | hc)
        · rw [h1] at hc
          exact absurd hc (by simp)
        · exact absurd hc (by omega)
        · exact Or.inr hd
        · exact Or.inr hd
        · rw [← Option.some.inj hq1] at hcomp
          exact absurd (hno c hc) (by simp [hcomp])
        · exact absurd h6 hc
      · rintro (⟨c, hc, hcomp⟩ | hd)
        · exact absurd (hno c hc) (by simp [hcomp])
        · exact Or.inr (Or.inr (Or.inr (Or.inl ⟨hd, rfl⟩)))
    · intro p2 h
      rw [mkResourcePool_ok_iff] at h
      obtain ⟨_, _, _, _, _, _, rfl⟩ := h
      rfl

theorem set_quota_spec_witness :
    P0.Valid ∧
    ((excIsErr (P0.set_quota q0) = true ↔
       ((∃ c ∈ P0.classes, q0.is_resource_class_compatible c = false) ∨ P0.default = true)) ∧
     ∀ p2, P0.set_quota q0 = Except.ok p2 → p2.quota = some q0) :=
  ⟨by decide, set_quota_spec P0 (by decide) q0⟩

end RenkuCrc

namespace RenkuCrc

theorem update_eq_poolFromDict {p : ResourcePool} {patch : PoolPatch}
    (h : ¬(p.default = true ∧ patch.default = some false)) :
    p.update patch =
      poolFromDict (patch.name.getD p.name) (patch.classes.getD p.classes)
        (patch.quota.getD p.quota) (patch.id.getD p.id) (patch.default.getD p.default)
        (patch.public.getD p.public) := by
  have hc : ¬((p.default && patch.default == some false) = true) := by
    simp only [Bool.and_eq_true, beq_iff_eq]
    exact h
  unfold ResourcePool.update
  rw [if_neg hc]

/-- **C4.** For a valid pool P, `update` raises ValidationError whenever the
patch sets default to false while P.default is true (a one-way transition);
in every other case it reconstructs from the merged fields through
`from_dict` (re-running all invariants), so in particular
`update(default=True)` on a pool whose public is false, or on a pool
carrying a quota, also raises ValidationError. -/
theorem update_default_transition (p : ResourcePool) (hp : p.Valid) (patch : PoolPatch) :
    (p.default = true → patch.default = some false → excIsErr (p.update patch) = true) ∧
    (¬(p.default = true ∧ patch.default = some false) →
      p.update patch =
        poolFromDict (patch.name.getD p.name) (patch.classes.getD p.classes)
          (patch.quota.getD p.quota) (patch.id.getD p.id) (patch.default.getD p.default)
          (patch.public.getD p.public)) ∧
    (patch.onlyDefaultTrue → p.public = false → excIsErr (p.update patch) = true) ∧
    (patch.onlyDefaultTrue → p.quota.isSome = true → excIsErr (p.update patch) = true) := by
  obtain ⟨hval, heml, hmk, hsort, h1, h2, h3, h4, h5, h6⟩ := valid_pool_facts hp
  refine ⟨?_, fun h => update_eq_poolFromDict h, ?_, ?_⟩
  · intro hd hpd
    unfold ResourcePool.update
    rw [if_pos (by simp [hd, hpd])]
    rfl
  · rintro ⟨hn, hc, hq, hi, hd, hpub⟩ hpublic
    rw [update_eq_poolFromDict (by simp [hd])]
    rw [hn, hc, hq, hi, hd, hpub]
    simp only [Option.getD_none, Option.getD_some]
    rw [poolFromDict_ok_classes heml, mkResourcePool_isErr_iff]
    exact Or.inr (Or.inr (Or.inl ⟨rfl, hpublic⟩))
  · rintro ⟨hn, hc, hq, hi, hd, hpub⟩ hquota
    rw [update_eq_poolFromDict (by simp [hd])]
    rw [hn, hc, hq, hi, hd, hpub]
    simp only [Option.getD_none, Option.getD_some]
    rw [poolFromDict_ok_classes heml, mkResourcePool_isErr_iff]
    cases hpubv : p.public with
    | false => exact Or.inr (Or.inr (Or.inl ⟨rfl, rfl⟩))
    | true => exact Or.inr (Or.inr (Or.inr (Or.inl ⟨rfl, hquota⟩)))

theorem update_default_transition_witness :
    (Pdef.Valid ∧ Ppriv.Valid ∧ Pq.Valid) ∧
    excIsErr (Pdef.update patchUndef) = true ∧
    excIsErr (Ppriv.update patchDefTrue) = true ∧
    excIsErr (Pq.update patchDefTrue) = true :=
  ⟨⟨by decide, by decide, by decide⟩,
    (update_default_transition Pdef (by decide) patchUndef).1 rfl rfl,
    (update_default_transition Ppriv (by decide) patchDefTrue).2.2.1 (by decide) rfl,
    (update_default_transition Pq (by decide) patchDefTrue).2.2.2 (by decide) rfl⟩

/-- **C5.** For a valid pool P and a patch for which `P.update(patch)`
succeeds, every field not named in the patch equals the corresponding field
of P (classes, quota, id, default, public, name — where preserved classes
keep their ids, matching, node_affinities and tolerations, and a preserved
quota keeps its id and gpu_kind, since the whole field value is preserved),
and the fields named in the patch take the patched values (patched classes
up to the canonical reordering of the constructor). -/
theorem update_frame (p : ResourcePool) (hp : p.Valid) (patch : PoolPatch) (p2 : ResourcePool)
    (h : p.update patch = Except.ok p2) :
    (patch.name = none → p2.name = p.name) ∧ (∀ n, patch.name = some n → p2.name = n) ∧
    (patch.classes = none → p2.classes = p.classes) ∧
    (∀ cs, patch.classes = some cs → (∀ c ∈ cs, c.Valid) → p2.classes.Perm cs) ∧
    (patch.quota = none → p2.quota = p.quota) ∧
    (∀ qo, patch.quota = some qo → p2.quota = qo) ∧
    (patch.id = none → p2.id = p.id) ∧ (∀ io, patch.id = some io → p2.id = io) ∧
    (patch.default = none → p2.default = p.default) ∧
    (∀ b, patch.default = some b → p2.default = b) ∧
    (patch.public = none → p2.public = p.public) ∧
    (∀ b, patch.public = some b → p2.public = b) := by
  obtain ⟨hval, heml, hmk, hsort, _, _, _, _, _, _⟩ := valid_pool_facts hp
  by_cases hguard : p.default = true ∧ patch.default = some false
  · unfold ResourcePool.update at h
    rw [if_pos (by simp [hguard.1, hguard.2])] at h
    exact absurd h (by simp)
  · rw [update_eq_poolFromDict hguard] at h
    cases heml2 : exceptMapList ResourceClass.reconstruct (patch.classes.getD p.classes) with
    | error e =>
      rw [poolFromDict_err_classes heml2] at h
      exact absurd h (by simp)
    | ok cs2 =>
      rw [poolFromDict_ok_classes heml2] at h
      rw [mkResourcePool_ok_iff] at h
      obtain ⟨_, _, _, _, _, _, rfl⟩ := h
      refine ⟨?_, ?_, ?_, ?_, ?_, ?_, ?_, ?_, ?_, ?_, ?_, ?_⟩
      · intro hn
        show patch.name.getD p.name = p.name
        rw [hn]
        rfl
      · intro n hn
        show patch.name.getD p.name = n
        rw [hn]
        rfl
      · intro hc
        show sortClasses cs2 = p.classes
        rw [hc] at heml2
        simp only [Option.getD_none] at heml2
        rw [heml] at heml2
        rw [← Except.ok.inj heml2]
        exact hsort
      · intro cs hc hcsvalid
        show (sortClasses cs2).Perm cs
        rw [hc] at heml2
        simp only [Option.getD_some] at heml2
        rw [exceptMapList_ok_of_forall _ _ hcsvalid] at heml2
        rw [← Except.ok.inj heml2]
        exact sortClasses_perm cs
      · intro hq
        show patch.quota.getD p.quota = p.quota
        rw [hq]
        rfl
      · intro qo hq
        show patch.quota.getD p.quota = qo
        rw [hq]
        rfl
      · intro hi
        show patch.id.getD p.id = p.id
        rw [hi]
        rfl
      · intro io hi
        show patch.id.getD p.id = io
        rw [hi]
        rfl
      · intro hd
        show patch.default.getD p.default = p.default
        rw [hd]
        rfl
      · intro b hd
        show patch.default.getD p.default = b
        rw [hd]
        rfl
      · intro hb
        show patch.public.getD p.public = p.public
        rw [hb]
        rfl
      · intro b hb
        show patch.public.getD p.public = b
        rw [hb]
        rfl

theorem update_frame_witness :
    (P0.Valid ∧ P0.update patch0 = Except.ok P1) ∧
    (P1.classes = P0.classes ∧ P1.quota = P0.quota ∧ P1.id = P0.id ∧
     P1.default = P0.default ∧ P1.public = P0.public ∧ P1.name = "renamed") := by
  have h := update_frame P0 (by decide) patch0 P1 (by decide)
  exact ⟨⟨by decide, by decide⟩,
    h.2.2.1 rfl, h.2.2.2.2.1 rfl, h.2.2.2.2.2.2.1 rfl, h.2.2.2.2.2.2.2.2.1 rfl,
    h.2.2.2.2.2.2.2.2.2.2.1 rfl, h.2.1 "renamed" rfl⟩

end RenkuCrc
